import Mathlib

/-!
Verification of the campaign scheduling engine of the
`agent-social-marketing` repository: the campaign data model, the date
allocator (`src/utils/date-utils.ts`), the per-channel item schedulers and
the scheduling orchestrator (`src/agent/scheduler/index.ts`), the campaign
store with its secondary index (`src/utils/kv-store.ts`) and the campaign
delete route (`src/api/campaigns/route.ts`).

Modelling conventions:
* Dates and timestamps are modelled at day granularity as natural numbers
  (`date-fns.addDays d n` becomes `d + n`); ISO formatting is identity.
* The external natural-language date parser (`parse-human-relative-time`)
  is an explicit function parameter `parse : String → Option Nat` mapping
  a hint string to the resolved day (`none` = unparseable / NaN date).
* The outbound Typefully call is an explicit oracle
  `dispatch : DraftRequest → Except String String` returning the remote
  draft id or the thrown error.
* The KV store is an association list; `kv.set` prepends and erases the
  stale binding.  JavaScript's `!s?.trim()` blank test on strings becomes
  `isBlank` (all characters whitespace, which is `trim() === ""`).
-/

namespace SocialMarketing

/-- Channel kind of a post (`platform` field in `types.ts`). -/
inductive Platform
  | linkedin
  | twitter
deriving DecidableEq, Repr

/-- Campaign lifecycle status (`CampaignStatus` in `types.ts`). -/
inductive CampaignStatus
  | planning
  | researching
  | writing
  | scheduling
  | active
  | completed
deriving DecidableEq, Repr

/-- Per-item outcome status (`status` of a scheduled post in `types.ts`). -/
inductive PostStatus
  | draft
  | scheduled
  | published
  | failed
deriving DecidableEq, Repr

/-- A social media post (`Post` in `types.ts`); dates at day granularity. -/
structure Post where
  platform : Platform
  content : String
  scheduledDate : Option Nat := none
  typefullyId : Option String := none
deriving DecidableEq, Repr

/-- A Twitter thread (`Thread` in `types.ts`). -/
structure Thread where
  tweets : List Post
  scheduledDate : Option Nat := none
  typefullyId : Option String := none
deriving DecidableEq, Repr

/-- Channel-partitioned campaign content (`CampaignContent` in `types.ts`). -/
structure CampaignContent where
  linkedInPosts : List Post
  twitterThreads : List Thread
deriving DecidableEq, Repr

/-- One scheduling outcome record (`SchedulingInfo.scheduledPosts` entry). -/
structure ScheduledPost where
  postId : String
  typefullyId : String
  scheduledDate : Nat
  status : PostStatus
deriving DecidableEq, Repr

/-- Scheduling information (`SchedulingInfo` in `types.ts`). -/
structure SchedulingInfo where
  typefullyScheduleId : Option String := none
  scheduledPosts : List ScheduledPost
deriving DecidableEq, Repr

/-- The campaign record (`Campaign` in `types.ts`). -/
structure Campaign where
  id : String
  topic : String
  status : CampaignStatus
  content : Option CampaignContent := none
  schedulingInfo : Option SchedulingInfo := none
  createdAt : Nat
  updatedAt : Nat
deriving DecidableEq, Repr

/-- JavaScript's falsy test `!s?.trim()` on a present string: true iff every
character is whitespace, i.e. `s.trim() === ""`. -/
def isBlank (s : String) : Bool := s.toList.all (·.isWhitespace)

/-- `getValidDate` from `src/utils/date-utils.ts`.  `parse` is the resolved
result of the natural-language parse followed by the `new Date(dateStr)`
fallback (`none` when the result is an invalid date); `isPast d` is the
strict comparison `d < now`. -/
def getValidDate (parse : String → Option Nat) (now : Nat)
    (dateStr : Option String) (ensureFuture : Bool := true) : Nat :=
  let defaultDate := now + 7
  match dateStr with
  | none => defaultDate
  | some s =>
    match parse s with
    | none => defaultDate
    | some dateObj =>
      if ensureFuture && decide (dateObj < now) then defaultDate else dateObj

/-- `incrementDateByDays` from `src/utils/date-utils.ts`: `addDays` at day
granularity (every modelled date is a valid date, so the catch branch that
returns the original string is unreachable). -/
def incrementDateByDays (dateStr : Nat) (days : Nat) : Nat := dateStr + days

/-- One outbound request to the Typefully drafts endpoint
(`createTypefullyDraft` body in `src/agent/scheduler/index.ts`; the api key
and the fixed safety flags carry no information and are omitted). -/
structure DraftRequest where
  content : String
  platform : Platform
  threadify : Bool
  scheduleDate : Nat
deriving DecidableEq, Repr

/-- The outbound `fetch` call as an oracle: remote draft id, or the error
thrown on a non-2xx response. -/
abbrev Dispatch := DraftRequest → Except String String

/-- Environment threaded through the scheduler: the dispatch oracle, the
date parser, the current time and `process.env.TYPEFULLY_API_KEY`. -/
structure Env where
  dispatch : Dispatch
  parse : String → Option Nat
  now : Nat
  apiKey : Option String

/-- `createTypefullyDraft` from `src/agent/scheduler/index.ts`: defaults the
date to `getValidDate("tomorrow")` when absent and performs the single
outbound call. -/
def createTypefullyDraft (env : Env) (content : String) (platform : Platform)
    (scheduledDate : Option Nat) (threadify : Bool := false) :
    Except String String :=
  let finalDate := scheduledDate.getD (getValidDate env.parse env.now (some "tomorrow"))
  env.dispatch ⟨content, platform, threadify, finalDate⟩

/-- The date index chosen for item `i`:
`Math.min(i, scheduledDates.length - 1)`. -/
def dateIndexFor (scheduledDates : List Nat) (i : Nat) : Nat :=
  min i (scheduledDates.length - 1)

/-- The `postDate || getValidDate("tomorrow")` fallback used in the outcome
records. -/
def postDateOrTomorrow (env : Env) (postDate : Option Nat) : Nat :=
  postDate.getD (getValidDate env.parse env.now (some "tomorrow"))

/-- Loop body of `scheduleLinkedInPosts`, processing posts from index `i`;
returns the outcome records together with the (in-place mutated) posts. -/
def scheduleLinkedInPostsGo (env : Env) (scheduledDates : List Nat) :
    Nat → List Post → List ScheduledPost × List Post
  | _, [] => ([], [])
  | i, post :: rest =>
    let postDate := scheduledDates.get? (dateIndexFor scheduledDates i)
    if post.content = "" then
      -- `if (!post.content) continue`: no outcome record at all
      let r := scheduleLinkedInPostsGo env scheduledDates (i + 1) rest
      (r.1, post :: r.2)
    else
      let sd := postDateOrTomorrow env postDate
      match createTypefullyDraft env post.content .linkedin postDate with
      | .ok typefullyId =>
        let r := scheduleLinkedInPostsGo env scheduledDates (i + 1) rest
        (⟨s!"linkedin-post-{i}", typefullyId, sd, .scheduled⟩ :: r.1,
         { post with scheduledDate := some sd, typefullyId := some typefullyId } :: r.2)
      | .error _ =>
        let r := scheduleLinkedInPostsGo env scheduledDates (i + 1) rest
        (⟨s!"linkedin-post-{i}", "", sd, .failed⟩ :: r.1, post :: r.2)

/-- `scheduleLinkedInPosts` from `src/agent/scheduler/index.ts`. -/
def scheduleLinkedInPosts (env : Env) (posts : List Post)
    (scheduledDates : List Nat) : List ScheduledPost × List Post :=
  if scheduledDates.length = 0 then ([], posts)
  else scheduleLinkedInPostsGo env scheduledDates 0 posts

/-- Thread body sent to the API: sub-item bodies joined with four newlines. -/
def threadContent (thread : Thread) : String :=
  String.intercalate "\n\n\n\n" (thread.tweets.map (·.content))

/-- Loop body of `scheduleTwitterThreads`, processing threads from index `i`. -/
def scheduleTwitterThreadsGo (env : Env) (scheduledDates : List Nat) :
    Nat → List Thread → List ScheduledPost × List Thread
  | _, [] => ([], [])
  | i, thread :: rest =>
    let postDate := scheduledDates.get? (dateIndexFor scheduledDates i)
    if thread.tweets = [] then
      -- `if (!thread.tweets?.length) continue`: empty threads are skipped
      let r := scheduleTwitterThreadsGo env scheduledDates (i + 1) rest
      (r.1, thread :: r.2)
    else
      let sd := postDateOrTomorrow env postDate
      match createTypefullyDraft env (threadContent thread) .twitter postDate true with
      | .ok typefullyId =>
        let r := scheduleTwitterThreadsGo env scheduledDates (i + 1) rest
        (⟨s!"twitter-thread-{i}", typefullyId, sd, .scheduled⟩ :: r.1,
         { thread with scheduledDate := some sd, typefullyId := some typefullyId } :: r.2)
      | .error _ =>
        let r := scheduleTwitterThreadsGo env scheduledDates (i + 1) rest
        (⟨s!"twitter-thread-{i}", "", sd, .failed⟩ :: r.1, thread :: r.2)

/-- `scheduleTwitterThreads` from `src/agent/scheduler/index.ts`. -/
def scheduleTwitterThreads (env : Env) (threads : List Thread)
    (scheduledDates : List Nat) : List ScheduledPost × List Thread :=
  if scheduledDates.length = 0 then ([], threads)
  else scheduleTwitterThreadsGo env scheduledDates 0 threads

/-- The per-channel date generation loop in `scheduleContent`: starting from
day-increment `inc`, push `incrementDateByDays scheduledDate inc` and bump
the increment, `n` times; returns the dates and the final increment. -/
def buildDates (scheduledDate : Nat) : Nat → Nat → List Nat × Nat
  | inc, 0 => ([], inc)
  | inc, n + 1 =>
    let d := incrementDateByDays scheduledDate inc
    let r := buildDates scheduledDate (inc + 1) n
    (d :: r.1, r.2)

/-- `scheduleContent` from `src/agent/scheduler/index.ts`: one shared
day-increment counter, LinkedIn posts first, then Twitter threads; the
per-channel outcomes are pushed onto `schedulingInfo.scheduledPosts` in
that order.  Returns the merged outcomes and the mutated content. -/
def scheduleContent (env : Env) (scheduledDate : Nat)
    (content? : Option CampaignContent) :
    List ScheduledPost × Option CampaignContent :=
  match content? with
  | none => ([], none)
  | some content =>
    let step1 :=
      if content.linkedInPosts.length ≠ 0 then
        let d := buildDates scheduledDate 0 content.linkedInPosts.length
        let r := scheduleLinkedInPosts env content.linkedInPosts d.1
        (r.1, r.2, d.2)
      else ([], content.linkedInPosts, 0)
    let step2 :=
      if content.twitterThreads.length ≠ 0 then
        let d := buildDates scheduledDate step1.2.2 content.twitterThreads.length
        scheduleTwitterThreads env content.twitterThreads d.1
      else ([], content.twitterThreads)
    (step1.1 ++ step2.1, some ⟨step1.2.1, step2.2⟩)

/-! ### Campaign store (`src/utils/kv-store.ts`) -/

/-- `ctx.kv.get` over an association list. -/
def kvGet (store : List (String × Campaign)) (k : String) : Option Campaign :=
  (store.find? (fun e => e.1 = k)).map (·.2)

/-- `ctx.kv.set` over an association list. -/
def kvSet (store : List (String × Campaign)) (k : String) (v : Campaign) :
    List (String × Campaign) :=
  (k, v) :: store.filter (fun e => e.1 ≠ k)

/-- `getCampaignIndex`: the stored id list filtered through `isValidId`. -/
def getCampaignIndex (index : List String) : List String :=
  index.filter (fun s => !isBlank s)

/-- `updateCampaignIndex` from `src/utils/kv-store.ts`: invalid ids are
ignored; the id is appended (to the validity-filtered read) only if not
already present, and nothing is written otherwise. -/
def updateCampaignIndex (index : List String) (campaignId : String) :
    List String :=
  if isBlank campaignId then index
  else if campaignId ∈ getCampaignIndex index then index
  else getCampaignIndex index ++ [campaignId]

/-- Durable state touched by the scheduler: the campaigns store and the
single shared index record. -/
structure SchedState where
  campaigns : List (String × Campaign)
  index : List String
deriving Repr

/-- `getCampaign` from `src/utils/kv-store.ts`. -/
def getCampaign (st : SchedState) (id : String) : Option Campaign :=
  if isBlank id then none else kvGet st.campaigns id

/-- `saveCampaign` from `src/utils/kv-store.ts`: validity check, store
write, index maintenance. -/
def saveCampaign (st : SchedState) (campaign : Campaign) :
    Bool × SchedState :=
  if isBlank campaign.id then (false, st)
  else
    (true,
      { campaigns := kvSet st.campaigns campaign.id campaign,
        index := updateCampaignIndex st.index campaign.id })

/-- `updateCampaignStatus` from `src/utils/kv-store.ts`: read, overwrite
`status`, refresh `updatedAt`, save (a missing campaign is a no-op). -/
def updateCampaignStatus (st : SchedState) (now : Nat) (campaignId : String)
    (status : CampaignStatus) : SchedState :=
  match getCampaign st campaignId with
  | none => st
  | some campaign =>
    (saveCampaign st { campaign with status := status, updatedAt := now }).2

/-! ### Scheduler agent handler (`src/agent/scheduler/index.ts`) -/

/-- Discriminated output of the scheduler agent (`SchedulerOutputSchema`). -/
inductive SchedulerOutput
  | error (msg : String)
  | success (campaignId : String) (scheduledPosts : Nat) (message : String)
deriving DecidableEq, Repr

/-- The scheduler agent `handler`: precondition checks, status transition to
`scheduling`, date resolution, content scheduling, save, transition to
`active`, success result reporting `schedulingInfo.scheduledPosts.length`. -/
def schedulerHandler (env : Env) (campaignId : String)
    (publishDate : Option String) (st : SchedState) :
    SchedulerOutput × SchedState :=
  if isBlank campaignId then (.error "Campaign ID is required", st)
  else
    match getCampaign st campaignId with
    | none => (.error ("Campaign not found with ID: " ++ campaignId), st)
    | some campaign =>
      match campaign.content with
      | none => (.error "Campaign has no content to schedule", st)
      | some _ =>
        match env.apiKey with
        | none =>
          (.error "Missing TYPEFULLY_API_KEY in environment variables", st)
        | some _ =>
          let st1 := updateCampaignStatus st env.now campaignId .scheduling
          let scheduledDateString := getValidDate env.parse env.now publishDate
          let r := scheduleContent env scheduledDateString campaign.content
          let campaign' :=
            { campaign with
                content := r.2,
                schedulingInfo := some { scheduledPosts := r.1 },
                updatedAt := env.now }
          let save := saveCampaign st1 campaign'
          if !save.1 then
            (.error "Failed to save campaign with scheduling info", save.2)
          else
            let st3 := updateCampaignStatus save.2 env.now campaignId .active
            let n := r.1.length
            (.success campaignId n
              s!"Successfully scheduled {n} posts for campaign", st3)

/-! ### Closed forms for the item schedulers -/

/-- The outcome record the LinkedIn loop produces for post `post` at
position `i` when the post is not skipped. -/
def linkedInAttempt (env : Env) (scheduledDates : List Nat) :
    Nat × Post → ScheduledPost
  | (i, post) =>
    let postDate := scheduledDates.get? (dateIndexFor scheduledDates i)
    let sd := postDateOrTomorrow env postDate
    match createTypefullyDraft env post.content .linkedin postDate with
    | .ok tid => ⟨s!"linkedin-post-{i}", tid, sd, .scheduled⟩
    | .error _ => ⟨s!"linkedin-post-{i}", "", sd, .failed⟩

/-- The optional outcome record for LinkedIn post `post` at position `i`:
`none` exactly when the post is skipped for empty content. -/
def linkedInOutcome (env : Env) (scheduledDates : List Nat)
    (x : Nat × Post) : Option ScheduledPost :=
  if x.2.content = "" then none else some (linkedInAttempt env scheduledDates x)

/-- The outcome record the Twitter loop produces for thread `thread` at
position `i` when the thread is not skipped. -/
def twitterAttempt (env : Env) (scheduledDates : List Nat) :
    Nat × Thread → ScheduledPost
  | (i, thread) =>
    let postDate := scheduledDates.get? (dateIndexFor scheduledDates i)
    let sd := postDateOrTomorrow env postDate
    match createTypefullyDraft env (threadContent thread) .twitter postDate true with
    | .ok tid => ⟨s!"twitter-thread-{i}", tid, sd, .scheduled⟩
    | .error _ => ⟨s!"twitter-thread-{i}", "", sd, .failed⟩

/-- The optional outcome record for thread `thread` at position `i`:
`none` exactly when the thread has no tweets. -/
def twitterOutcome (env : Env) (scheduledDates : List Nat)
    (x : Nat × Thread) : Option ScheduledPost :=
  if x.2.tweets = [] then none else some (twitterAttempt env scheduledDates x)

theorem scheduleLinkedInPostsGo_fst (env : Env) (dates : List Nat) :
    ∀ (posts : List Post) (i : Nat),
      (scheduleLinkedInPostsGo env dates i posts).1 =
        (posts.enumFrom i).filterMap (linkedInOutcome env dates) := by
  intro posts
  induction posts with
  | nil => intro i; simp [scheduleLinkedInPostsGo]
  | cons p rest ih =>
    intro i
    simp only [scheduleLinkedInPostsGo, List.enumFrom, List.filterMap_cons,
      linkedInOutcome, linkedInAttempt]
    by_cases h : p.content = ""
    · simp [h, ih]
    · simp only [h, if_neg, if_false]
      cases hc : createTypefullyDraft env p.content .linkedin
          (dates.get? (dateIndexFor dates i)) with
      | ok tid => simp [h, hc, ih]
      | error e => simp [h, hc, ih]

theorem scheduleTwitterThreadsGo_fst (env : Env) (dates : List Nat) :
    ∀ (threads : List Thread) (i : Nat),
      (scheduleTwitterThreadsGo env dates i threads).1 =
        (threads.enumFrom i).filterMap (twitterOutcome env dates) := by
  intro threads
  induction threads with
  | nil => intro i; simp [scheduleTwitterThreadsGo]
  | cons t rest ih =>
    intro i
    simp only [scheduleTwitterThreadsGo, List.enumFrom, List.filterMap_cons,
      twitterOutcome, twitterAttempt]
    by_cases h : t.tweets = []
    · simp [h, ih]
    · simp only [h, if_neg, if_false]
      cases hc : createTypefullyDraft env (threadContent t) .twitter
          (dates.get? (dateIndexFor dates i)) true with
      | ok tid => simp [h, hc, ih]
      | error e => simp [h, hc, ih]

theorem filterMap_linkedInOutcome_eq_map (env : Env) (dates : List Nat) :
    ∀ (posts : List Post) (i : Nat), (∀ p ∈ posts, p.content ≠ "") →
      (posts.enumFrom i).filterMap (linkedInOutcome env dates) =
        (posts.enumFrom i).map (linkedInAttempt env dates) := by
  intro posts
  induction posts with
  | nil => intro i _; simp
  | cons p rest ih =>
    intro i h
    have hp : p.content ≠ "" := h p (by simp)
    simp only [List.enumFrom, List.filterMap_cons, List.map_cons,
      linkedInOutcome, hp, if_neg, if_false]
    simp [ih _ (fun q hq => h q (by simp [hq])), linkedInOutcome, hp]

theorem filterMap_twitterOutcome_eq_map (env : Env) (dates : List Nat) :
    ∀ (threads : List Thread) (i : Nat), (∀ t ∈ threads, t.tweets ≠ []) →
      (threads.enumFrom i).filterMap (twitterOutcome env dates) =
        (threads.enumFrom i).map (twitterAttempt env dates) := by
  intro threads
  induction threads with
  | nil => intro i _; simp
  | cons t rest ih =>
    intro i h
    have ht : t.tweets ≠ [] := h t (by simp)
    simp only [List.enumFrom, List.filterMap_cons, List.map_cons,
      twitterOutcome, ht, if_neg, if_false]
    simp [ih _ (fun q hq => h q (by simp [hq])), twitterOutcome, ht]

theorem buildDates_eq (base : Nat) : ∀ (n inc : Nat),
    buildDates base inc n =
      ((List.range n).map (fun j => base + inc + j), inc + n) := by
  intro n
  induction n with
  | zero => intro inc; simp [buildDates]
  | succ m ih =>
    intro inc
    have hf : (fun j => base + (inc + 1) + j) = (fun j => base + inc + (j + 1)) := by
      funext j; omega
    have hc : ((fun j => base + inc + j) ∘ Nat.succ) = (fun j => base + inc + (j + 1)) := by
      funext j; simp [Nat.succ_eq_add_one]
    simp only [buildDates, incrementDateByDays, ih (inc + 1), hf,
      List.range_succ_eq_map, List.map_cons, List.map_map, hc, Prod.mk.injEq]
    refine ⟨?_, by omega⟩
    simp

theorem scheduleLinkedInPostsGo_map_scheduledDate (env : Env) (dates : List Nat) :
    ∀ (posts : List Post) (i : Nat), (∀ p ∈ posts, p.content ≠ "") →
      i + posts.length ≤ dates.length →
      ((scheduleLinkedInPostsGo env dates i posts).1).map (·.scheduledDate) =
        (List.range posts.length).map
          (fun k => postDateOrTomorrow env (dates.get? (i + k))) := by
  intro posts
  induction posts with
  | nil => intro i _ _; simp [scheduleLinkedInPostsGo]
  | cons p rest ih =>
    intro i h hlen
    have hp : p.content ≠ "" := h p (by simp)
    have hi : i < dates.length := by
      simp only [List.length_cons] at hlen; omega
    have hidx : dateIndexFor dates i = i := by
      unfold dateIndexFor; omega
    have htail := ih (i + 1) (fun q hq => h q (by simp [hq]))
      (by simp only [List.length_cons] at hlen ⊢; omega)
    have hf : (fun k => postDateOrTomorrow env (dates.get? (i + 1 + k))) =
        (fun k => postDateOrTomorrow env (dates.get? (i + (k + 1)))) := by
      funext k; congr 2; omega
    simp only [scheduleLinkedInPostsGo, hidx, hp, if_neg, if_false]
    cases hc : createTypefullyDraft env p.content .linkedin (dates.get? i) with
    | ok tid =>
      simp only [hc, List.map_cons, htail, hf, List.length_cons,
        List.range_succ_eq_map, List.map_map]
      simp [Function.comp]
    | error e =>
      simp only [hc, List.map_cons, htail, hf, List.length_cons,
        List.range_succ_eq_map, List.map_map]
      simp [Function.comp]

theorem scheduleTwitterThreadsGo_map_scheduledDate (env : Env) (dates : List Nat) :
    ∀ (threads : List Thread) (i : Nat), (∀ t ∈ threads, t.tweets ≠ []) →
      i + threads.length ≤ dates.length →
      ((scheduleTwitterThreadsGo env dates i threads).1).map (·.scheduledDate) =
        (List.range threads.length).map
          (fun k => postDateOrTomorrow env (dates.get? (i + k))) := by
  intro threads
  induction threads with
  | nil => intro i _ _; simp [scheduleTwitterThreadsGo]
  | cons t rest ih =>
    intro i h hlen
    have ht : t.tweets ≠ [] := h t (by simp)
    have hi : i < dates.length := by
      simp only [List.length_cons] at hlen; omega
    have hidx : dateIndexFor dates i = i := by
      unfold dateIndexFor; omega
    have htail := ih (i + 1) (fun q hq => h q (by simp [hq]))
      (by simp only [List.length_cons] at hlen ⊢; omega)
    have hf : (fun k => postDateOrTomorrow env (dates.get? (i + 1 + k))) =
        (fun k => postDateOrTomorrow env (dates.get? (i + (k + 1)))) := by
      funext k; congr 2; omega
    simp only [scheduleTwitterThreadsGo, hidx, ht, if_neg, if_false]
    cases hc : createTypefullyDraft env (threadContent t) .twitter (dates.get? i) true with
    | ok tid =>
      simp only [hc, List.map_cons, htail, hf, List.length_cons,
        List.range_succ_eq_map, List.map_map]
      simp [Function.comp]
    | error e =>
      simp only [hc, List.map_cons, htail, hf, List.length_cons,
        List.range_succ_eq_map, List.map_map]
      simp [Function.comp]

/-! ### Sample values used by the concrete witnesses -/

/-- Sample environment whose dispatch oracle fails exactly on body `"bad"`. -/
def sampleEnv : Env :=
  ⟨fun r => if r.content = "bad" then .error "500" else .ok ("id-" ++ r.content),
   fun _ => none, 0, some "key"⟩

def samplePostA : Post := ⟨.linkedin, "A", none, none⟩

def samplePostBad : Post := ⟨.linkedin, "bad", none, none⟩

def samplePostC : Post := ⟨.linkedin, "C", none, none⟩

def samplePostEmpty : Post := ⟨.linkedin, "", none, none⟩

def sampleThread : Thread := ⟨[⟨.twitter, "t1", none, none⟩], none, none⟩

def sampleThreadEmpty : Thread := ⟨[], none, none⟩

def sampleContent : CampaignContent := ⟨[samplePostA, samplePostC], [sampleThread]⟩

/-! ### Claim theorems: scheduling engine -/

/-- C2: for a campaign whose content has both LinkedIn posts and Twitter
threads, one shared day-increment counter is used across channels: the
LinkedIn scheduler receives dates `base+0 … base+(nL-1)`, the Twitter
scheduler receives `base+nL` onward, the merged outcome list is all
LinkedIn outcomes followed by all Twitter outcomes, and (when no item is
skipped) the merged outcomes carry dates `base, base+1, …` with no day
reused across the campaign. -/
theorem scheduleContent_shared_day_counter (env : Env) (base : Nat)
    (content : CampaignContent)
    (hL : content.linkedInPosts ≠ []) (hT : content.twitterThreads ≠ []) :
    (scheduleContent env base (some content)).1 =
      (scheduleLinkedInPosts env content.linkedInPosts
        ((List.range content.linkedInPosts.length).map (fun j => base + j))).1 ++
      (scheduleTwitterThreads env content.twitterThreads
        ((List.range content.twitterThreads.length).map
          (fun j => base + content.linkedInPosts.length + j))).1 ∧
    ((∀ p ∈ content.linkedInPosts, p.content ≠ "") →
      (∀ t ∈ content.twitterThreads, t.tweets ≠ []) →
      (scheduleContent env base (some content)).1.map (·.scheduledDate) =
        (List.range (content.linkedInPosts.length + content.twitterThreads.length)).map
          (fun k => base + k)) := by
  have hL0 : content.linkedInPosts.length ≠ 0 := fun h => hL (List.length_eq_zero.mp h)
  have hT0 : content.twitterThreads.length ≠ 0 := fun h => hT (List.length_eq_zero.mp h)
  have hmain : (scheduleContent env base (some content)).1 =
      (scheduleLinkedInPosts env content.linkedInPosts
        ((List.range content.linkedInPosts.length).map (fun j => base + j))).1 ++
      (scheduleTwitterThreads env content.twitterThreads
        ((List.range content.twitterThreads.length).map
          (fun j => base + content.linkedInPosts.length + j))).1 := by
    unfold scheduleContent
    simp only [hL0, hT0, if_pos, if_neg, ite_not, buildDates_eq, Nat.add_zero,
      Nat.zero_add, if_false, ite_false, ite_true]
  refine ⟨hmain, fun hpc htc => ?_⟩
  rw [hmain, List.map_append]
  have hlenL : ((List.range content.linkedInPosts.length).map
      (fun j => base + j)).length = content.linkedInPosts.length := by simp
  have hlenT : ((List.range content.twitterThreads.length).map
      (fun j => base + content.linkedInPosts.length + j)).length =
      content.twitterThreads.length := by simp
  rw [scheduleLinkedInPosts, if_neg (by rw [hlenL]; exact hL0),
    scheduleTwitterThreads, if_neg (by rw [hlenT]; exact hT0)]
  rw [scheduleLinkedInPostsGo_map_scheduledDate env _ content.linkedInPosts 0 hpc
    (by rw [hlenL]; omega)]
  rw [scheduleTwitterThreadsGo_map_scheduledDate env _ content.twitterThreads 0 htc
    (by rw [hlenT]; omega)]
  have e1 : (List.range content.linkedInPosts.length).map
      (fun k => postDateOrTomorrow env
        (((List.range content.linkedInPosts.length).map (fun j => base + j)).get? (0 + k))) =
      (List.range content.linkedInPosts.length).map (fun k => base + k) := by
    refine List.map_eq_map_iff.mpr fun k hk => ?_
    have hk' : k < content.linkedInPosts.length := List.mem_range.mp hk
    rw [Nat.zero_add, List.get?_map, List.get?_range hk']
    rfl
  have e2 : (List.range content.twitterThreads.length).map
      (fun k => postDateOrTomorrow env
        (((List.range content.twitterThreads.length).map
          (fun j => base + content.linkedInPosts.length + j)).get? (0 + k))) =
      (List.range content.twitterThreads.length).map
        (fun k => base + content.linkedInPosts.length + k) := by
    refine List.map_eq_map_iff.mpr fun k hk => ?_
    have hk' : k < content.twitterThreads.length := List.mem_range.mp hk
    rw [Nat.zero_add, List.get?_map, List.get?_range hk']
    rfl
  rw [e1, e2, List.range_add, List.map_append, List.map_map]
  congr 1
  refine List.map_eq_map_iff.mpr fun k hk => ?_
  simp only [Function.comp_apply]
  omega

/-- Witness for C2: two LinkedIn posts and one Twitter thread get dates
`base, base+1, base+2` and merge in channel-then-position order. -/
theorem scheduleContent_shared_day_counter_witness :
    (scheduleContent sampleEnv 10 (some sampleContent)).1.map (·.scheduledDate) =
      [10, 11, 12] ∧
    (scheduleContent sampleEnv 10 (some sampleContent)).1.map (·.postId) =
      ["linkedin-post-0", "linkedin-post-1", "twitter-thread-0"] := by
  have h := scheduleContent_shared_day_counter sampleEnv 10 sampleContent
    (by decide) (by decide)
  exact ⟨(h.2 (by decide) (by decide)).trans (by decide), by decide⟩

/-- C3: with a non-empty date list and no skipped items, the LinkedIn item
scheduler attempts every item — the outcome list is the per-item attempt
record in original order, its length equals the item count, and an item
whose dispatch errors yields a `failed` outcome with empty draft id and its
assigned date, without affecting any other item's outcome. -/
theorem scheduleLinkedInPosts_failure_isolation (env : Env) (posts : List Post)
    (dates : List Nat) (hd : dates ≠ []) (hne : ∀ p ∈ posts, p.content ≠ "") :
    (scheduleLinkedInPosts env posts dates).1 =
      (posts.enumFrom 0).map (linkedInAttempt env dates) ∧
    (scheduleLinkedInPosts env posts dates).1.length = posts.length ∧
    (∀ i post e,
      env.dispatch ⟨post.content, .linkedin, false,
        postDateOrTomorrow env (dates.get? (dateIndexFor dates i))⟩ = .error e →
      linkedInAttempt env dates (i, post) =
        ⟨s!"linkedin-post-{i}", "",
          postDateOrTomorrow env (dates.get? (dateIndexFor dates i)), .failed⟩) := by
  have hd0 : dates.length ≠ 0 := fun h => hd (List.length_eq_zero.mp h)
  have hmain : (scheduleLinkedInPosts env posts dates).1 =
      (posts.enumFrom 0).map (linkedInAttempt env dates) := by
    rw [scheduleLinkedInPosts, if_neg hd0, scheduleLinkedInPostsGo_fst,
      filterMap_linkedInOutcome_eq_map env dates posts 0 hne]
  refine ⟨hmain, by rw [hmain]; simp, fun i post e h => ?_⟩
  simp only [linkedInAttempt, createTypefullyDraft, postDateOrTomorrow] at h ⊢
  rw [h]

/-- Witness for C3: items `[ok, bad, ok]` where dispatching `bad` errors
produce statuses `[scheduled, failed, scheduled]` in original order. -/
theorem scheduleLinkedInPosts_failure_isolation_witness :
    (scheduleLinkedInPosts sampleEnv [samplePostA, samplePostBad, samplePostC]
      [1, 2, 3]).1.map (·.status) = [.scheduled, .failed, .scheduled] ∧
    (scheduleLinkedInPosts sampleEnv [samplePostA, samplePostBad, samplePostC]
      [1, 2, 3]).1.length = 3 := by
  have h := scheduleLinkedInPosts_failure_isolation sampleEnv
    [samplePostA, samplePostBad, samplePostC] [1, 2, 3] (by decide) (by decide)
  exact ⟨by decide, h.2.1.trans (by decide)⟩

/-- C5: for a non-empty date list the clamped index
`min i (len - 1)` is always in range — the selected date is `dates[i]`
when `i` is in range and the last date when `i` overruns the list. -/
theorem dateIndexFor_clamp (dates : List Nat) (i : Nat) (h : dates ≠ []) :
    ∃ d, dates.get? (dateIndexFor dates i) = some d ∧
      (dates.length ≤ i → dates.getLast? = some d) ∧
      (i < dates.length → dates.get? i = some d) := by
  have hlen : 0 < dates.length := List.length_pos.mpr h
  by_cases hc : i < dates.length
  · have hidx : dateIndexFor dates i = i := by unfold dateIndexFor; omega
    refine ⟨dates.get ⟨i, hc⟩, ?_, fun h' => absurd h' (by omega), fun _ => ?_⟩
    · rw [hidx]; exact List.get?_eq_get hc
    · exact List.get?_eq_get hc
  · have hidx : dateIndexFor dates i = dates.length - 1 := by
      unfold dateIndexFor; omega
    have hlt : dates.length - 1 < dates.length := by omega
    refine ⟨dates.get ⟨dates.length - 1, hlt⟩, ?_, fun _ => ?_, fun h' => absurd h' hc⟩
    · rw [hidx]; exact List.get?_eq_get hlt
    · rw [List.getLast?_eq_get?]
      exact List.get?_eq_get hlt

/-- Witness for C5: position 7 against a 3-element date list. -/
theorem dateIndexFor_clamp_witness :
    ∃ d, ([4, 5, 6] : List Nat).get? (dateIndexFor [4, 5, 6] 7) = some d ∧
      (([4, 5, 6] : List Nat).length ≤ 7 → ([4, 5, 6] : List Nat).getLast? = some d) ∧
      (7 < ([4, 5, 6] : List Nat).length → ([4, 5, 6] : List Nat).get? 7 = some d) :=
  dateIndexFor_clamp [4, 5, 6] 7 (by decide)

/-- C7: the item schedulers drop items with empty body content (and threads
with zero tweets) from the outcome list entirely — the outcomes are the
`filterMap` of the per-item optional outcome, which is `none` exactly on
empty items, so skipped items are not counted as failures. -/
theorem schedule_skips_empty_items (env : Env) (posts : List Post)
    (threads : List Thread) (datesL datesT : List Nat)
    (hL : datesL ≠ []) (hT : datesT ≠ []) :
    (scheduleLinkedInPosts env posts datesL).1 =
      (posts.enumFrom 0).filterMap (linkedInOutcome env datesL) ∧
    (scheduleTwitterThreads env threads datesT).1 =
      (threads.enumFrom 0).filterMap (twitterOutcome env datesT) ∧
    (∀ i post, post.content = "" → linkedInOutcome env datesL (i, post) = none) ∧
    (∀ i thread, thread.tweets = [] → twitterOutcome env datesT (i, thread) = none) := by
  have hL0 : datesL.length ≠ 0 := fun h => hL (List.length_eq_zero.mp h)
  have hT0 : datesT.length ≠ 0 := fun h => hT (List.length_eq_zero.mp h)
  refine ⟨?_, ?_, ?_, ?_⟩
  · rw [scheduleLinkedInPosts, if_neg hL0, scheduleLinkedInPostsGo_fst]
  · rw [scheduleTwitterThreads, if_neg hT0, scheduleTwitterThreadsGo_fst]
  · intro i post hp; simp [linkedInOutcome, hp]
  · intro i thread ht; simp [twitterOutcome, ht]

/-- Witness for C7: an empty post and an empty thread are dropped from the
outcome lists without producing records. -/
theorem schedule_skips_empty_items_witness :
    (scheduleLinkedInPosts sampleEnv [samplePostA, samplePostEmpty, samplePostC]
      [1, 2, 3]).1.map (·.postId) = ["linkedin-post-0", "linkedin-post-2"] ∧
    (scheduleTwitterThreads sampleEnv [sampleThreadEmpty, sampleThread]
      [1, 2]).1.map (·.postId) = ["twitter-thread-1"] := by
  have h := schedule_skips_empty_items sampleEnv
    [samplePostA, samplePostEmpty, samplePostC] [sampleThreadEmpty, sampleThread]
    [1, 2, 3] [1, 2] (by decide) (by decide)
  exact ⟨by rw [h.1]; decide, by rw [h.2.1]; decide⟩

theorem kvGet_kvSet_self (store : List (String × Campaign)) (k : String) (v : Campaign) :
    kvGet (kvSet store k v) k = some v := by
  simp [kvGet, kvSet]

/-- Environment whose dispatch oracle always fails with a 500 error. -/
def failEnv : Env := ⟨fun _ => .error "500", fun _ => none, 0, some "key"⟩

def failCampaign : Campaign := ⟨"c1", "t", .writing, some ⟨[samplePostA], []⟩, none, 0, 0⟩

def failState : SchedState := ⟨[("c1", failCampaign)], []⟩

/-! ### Claim theorems: handler -/

/-- C1: end-to-end — for the campaign `{id:"c1",
content:{linkedInPosts:[{content:"A"}], twitterThreads:[]}}` with hint
`"tomorrow"`, when the single dispatch succeeds with draft id `"d1"`, the
run returns a success result and the stored campaign ends with
`schedulingInfo.scheduledPosts = [{postId:"linkedin-post-0",
typefullyId:"d1", scheduledDate:<tomorrow>, status:"scheduled"}]` and
status `active`. -/
theorem scheduler_end_to_end_tomorrow (now : Nat) (topic : String)
    (st0 : CampaignStatus) (cAt uAt : Nat) (si0 : Option SchedulingInfo)
    (idx : List String) :
    (schedulerHandler
        ⟨fun _ => .ok "d1",
         fun s => if s = "tomorrow" then some (now + 1) else none,
         now, some "key"⟩
        "c1" (some "tomorrow")
        ⟨[("c1", ⟨"c1", topic, st0,
            some ⟨[⟨.linkedin, "A", none, none⟩], []⟩, si0, cAt, uAt⟩)], idx⟩).1 =
      .success "c1" 1 "Successfully scheduled 1 posts for campaign" ∧
    ∃ c', getCampaign
        (schedulerHandler
          ⟨fun _ => .ok "d1",
           fun s => if s = "tomorrow" then some (now + 1) else none,
           now, some "key"⟩
          "c1" (some "tomorrow")
          ⟨[("c1", ⟨"c1", topic, st0,
              some ⟨[⟨.linkedin, "A", none, none⟩], []⟩, si0, cAt, uAt⟩)], idx⟩).2
        "c1" = some c' ∧
      c'.schedulingInfo =
        some ⟨none, [⟨"linkedin-post-0", "d1", now + 1, .scheduled⟩]⟩ ∧
      c'.status = .active := by
  have h1 : (decide (now + 1 < now)) = false := by simp
  simp +decide [schedulerHandler, getCampaign, kvGet, kvSet, saveCampaign,
    updateCampaignStatus, updateCampaignIndex, getCampaignIndex,
    scheduleContent, scheduleLinkedInPosts, scheduleLinkedInPostsGo,
    scheduleTwitterThreads, buildDates, incrementDateByDays,
    createTypefullyDraft, postDateOrTomorrow, dateIndexFor, getValidDate, h1]

/-- C4 counterexample: with a single post whose dispatch fails, the handler
still returns success reporting `scheduledPosts = 1`, although zero
outcomes have status `scheduled` (the reported count is the total number of
outcome records, failed ones included). -/
theorem scheduler_count_counterexample :
    (schedulerHandler failEnv "c1" none failState).1 =
      .success "c1" 1 "Successfully scheduled 1 posts for campaign" ∧
    (scheduleContent failEnv 7 failCampaign.content).1.map (·.status) = [.failed] ∧
    ((scheduleContent failEnv 7 failCampaign.content).1.filter
      (fun p => p.status = PostStatus.scheduled)).length = 0 := by
  decide

/-- C4 amended: when no precondition error occurs, the handler returns
success even if items failed at dispatch, and the reported count is the
total length of `schedulingInfo.scheduledPosts` — the outcome records of
both statuses as recorded in the saved campaign — not the number of
`scheduled` outcomes. -/
theorem scheduler_reports_total_outcomes (env : Env) (key : String)
    (st : SchedState) (campaignId : String) (camp : Campaign)
    (publishDate : Option String) (content : CampaignContent)
    (hk : env.apiKey = some key)
    (hid : isBlank campaignId = false)
    (hget : getCampaign st campaignId = some camp)
    (hcid : camp.id = campaignId)
    (hcontent : camp.content = some content) :
    (schedulerHandler env campaignId publishDate st).1 =
      .success campaignId
        (scheduleContent env (getValidDate env.parse env.now publishDate) camp.content).1.length
        s!"Successfully scheduled {(scheduleContent env (getValidDate env.parse env.now publishDate) camp.content).1.length} posts for campaign" ∧
    ∃ c', getCampaign (schedulerHandler env campaignId publishDate st).2 campaignId = some c' ∧
      c'.schedulingInfo = some
        { typefullyScheduleId := none,
          scheduledPosts :=
            (scheduleContent env (getValidDate env.parse env.now publishDate) camp.content).1 } ∧
      c'.status = .active := by
  have hcb : isBlank camp.id = false := by rw [hcid]; exact hid
  subst hcid
  have hkv : kvGet st.campaigns camp.id = some camp := by
    rw [getCampaign, if_neg (by simp [hcb])] at hget
    exact hget
  unfold schedulerHandler
  simp only [hcb, Bool.false_eq_true, if_false, hkv, hcontent, hk,
    updateCampaignStatus, saveCampaign, getCampaign, kvGet_kvSet_self,
    Bool.not_true, ite_false, ite_true]
  refine ⟨trivial, ?_⟩
  exact ⟨_, rfl, rfl, rfl⟩

/-- Witness for the amended C4: an all-failed run still returns success
with the total outcome count. -/
theorem scheduler_reports_total_outcomes_witness :
    (schedulerHandler failEnv "c1" none failState).1 =
      .success "c1" 1 "Successfully scheduled 1 posts for campaign" := by
  have h := scheduler_reports_total_outcomes failEnv "key" failState "c1"
    failCampaign none ⟨[samplePostA], []⟩ rfl (by decide) (by decide) rfl rfl
  exact h.1.trans (by decide)

/-! ### Claim theorems: date allocator -/

/-- C6 counterexample: a hint resolving to a date that is not strictly in
the future — exactly `now` — is accepted and returned rather than replaced
by the `now + 7` default the claim requires. -/
theorem getValidDate_now_boundary_counterexample :
    getValidDate (fun _ => some 5) 5 (some "today") true = 5 ∧
    getValidDate (fun _ => some 5) 5 none true = 12 ∧ (5 : Nat) ≠ 12 := by
  decide

/-- C6 amended: absent or unparseable hints yield the `now + 7` default,
and a hint resolving to a date strictly in the past yields exactly the
no-hint result; a hint resolving at or after `now` (including exactly
`now`, which is not strictly in the future) is kept as the base date. -/
theorem getValidDate_default_policy (parse : String → Option Nat) (now : Nat)
    (s : String) :
    getValidDate parse now none true = now + 7 ∧
    (parse s = none → getValidDate parse now (some s) true = now + 7) ∧
    (∀ d, parse s = some d → d < now →
      getValidDate parse now (some s) true = getValidDate parse now none true) ∧
    (∀ d, parse s = some d → now ≤ d →
      getValidDate parse now (some s) true = d) := by
  refine ⟨rfl, fun h => by simp [getValidDate, h],
    fun d h hd => ?_, fun d h hd => ?_⟩
  · simp [getValidDate, h, hd]
  · simp [getValidDate, h, Nat.not_lt.mpr hd]

/-- Witness for the amended C6: a strictly-past hint gives exactly the
no-hint result. -/
theorem getValidDate_default_policy_witness :
    getValidDate (fun _ => some 3) 10 (some "x") true =
      getValidDate (fun _ => some 3) 10 none true :=
  (getValidDate_default_policy (fun _ => some 3) 10 "x").2.2.1 3 rfl (by decide)

/-! ### Claim theorems: campaign index -/

/-- An index-mutating operation: a campaign save (via `updateCampaignIndex`)
or a campaign delete (the route's `filter` removal). -/
inductive IndexOp
  | save (id : String)
  | del (id : String)

/-- The effect of one operation on the stored index record. -/
def applyIndexOp (index : List String) : IndexOp → List String
  | .save id => updateCampaignIndex index id
  | .del id => index.filter (fun cid => cid ≠ id)

theorem updateCampaignIndex_nodup {index : List String} (h : index.Nodup)
    (id : String) : (updateCampaignIndex index id).Nodup := by
  by_cases hb : isBlank id = true
  · rw [updateCampaignIndex, if_pos hb]; exact h
  · rw [updateCampaignIndex, if_neg hb]
    by_cases hmem : id ∈ getCampaignIndex index
    · rw [if_pos hmem]; exact h
    · rw [if_neg hmem, List.nodup_append]
      refine ⟨h.filter _, List.nodup_singleton id, fun a ha hb' => ?_⟩
      simp only [List.mem_singleton] at hb'
      subst hb'
      exact hmem ha

theorem applyIndexOp_nodup {index : List String} (h : index.Nodup)
    (op : IndexOp) : (applyIndexOp index op).Nodup := by
  cases op with
  | save id => exact updateCampaignIndex_nodup h id
  | del id => exact h.filter _

theorem foldl_applyIndexOp_nodup (ops : List IndexOp) :
    ∀ {index : List String}, index.Nodup → (ops.foldl applyIndexOp index).Nodup := by
  induction ops with
  | nil => intro index h; exact h
  | cons op rest ih => intro index h; exact ih (applyIndexOp_nodup h op)

theorem updateCampaignIndex_count {index : List String} (h : index.Nodup)
    {id : String} (hv : isBlank id = false) :
    (updateCampaignIndex index id).count id = 1 := by
  rw [updateCampaignIndex, if_neg (by simp [hv])]
  by_cases hmem : id ∈ getCampaignIndex index
  · rw [if_pos hmem]
    exact List.count_eq_one_of_mem h (List.mem_filter.mp hmem).1
  · rw [if_neg hmem, List.count_append]
    have h0 : (getCampaignIndex index).count id = 0 :=
      List.count_eq_zero_of_not_mem hmem
    simp [h0]

theorem updateCampaignIndex_idem (index : List String) (id : String)
    (hv : isBlank id = false) :
    updateCampaignIndex (updateCampaignIndex index id) id =
      updateCampaignIndex index id := by
  have hinner : updateCampaignIndex index id =
      if id ∈ getCampaignIndex index then index
      else getCampaignIndex index ++ [id] := by
    rw [updateCampaignIndex, if_neg (by simp [hv])]
  by_cases hmem : id ∈ getCampaignIndex index
  · rw [hinner, if_pos hmem, hinner, if_pos hmem]
  · have hm : id ∈ getCampaignIndex (getCampaignIndex index ++ [id]) :=
      List.mem_filter.mpr ⟨List.mem_append_right _ (by simp), by simp [hv]⟩
    rw [hinner, if_neg hmem, updateCampaignIndex, if_neg (by simp [hv]), if_pos hm]

/-- C8: every id whose save succeeded appears in the index exactly once —
any sequence of save/delete operations keeps the index duplicate-free, a
save of a valid id leaves exactly one occurrence, saving the same id again
changes nothing, and a delete removes the id leaving zero occurrences. -/
theorem campaign_index_exactly_once (ops : List IndexOp) (index : List String)
    (id : String) (hn : index.Nodup) (hv : isBlank id = false) :
    (ops.foldl applyIndexOp []).Nodup ∧
    (updateCampaignIndex index id).Nodup ∧
    (updateCampaignIndex index id).count id = 1 ∧
    updateCampaignIndex (updateCampaignIndex index id) id =
      updateCampaignIndex index id ∧
    ((updateCampaignIndex index id).filter (fun cid => cid ≠ id)).count id = 0 := by
  refine ⟨foldl_applyIndexOp_nodup ops List.nodup_nil,
    updateCampaignIndex_nodup hn id,
    updateCampaignIndex_count hn hv,
    updateCampaignIndex_idem index id hv,
    List.count_eq_zero_of_not_mem fun hmem => ?_⟩
  have := (List.mem_filter.mp hmem).2
  simp at this

/-- Witness for C8: a duplicate save of `"A"` over index `["B"]` and its
subsequent delete. -/
theorem campaign_index_exactly_once_witness :
    ((([IndexOp.save "A", IndexOp.save "A", IndexOp.del "A"] : List IndexOp).foldl
      applyIndexOp []).Nodup ∧
    (updateCampaignIndex ["B"] "A").Nodup ∧
    (updateCampaignIndex ["B"] "A").count "A" = 1 ∧
    updateCampaignIndex (updateCampaignIndex ["B"] "A") "A" =
      updateCampaignIndex ["B"] "A" ∧
    ((updateCampaignIndex ["B"] "A").filter (fun cid => cid ≠ "A")).count "A" = 0) :=
  campaign_index_exactly_once [IndexOp.save "A", IndexOp.save "A", IndexOp.del "A"]
    ["B"] "A" (by decide) (by decide)

/-! ### Claim theorems: campaign delete route -/

/-- HTTP-level outcome of the delete route. -/
inductive RouteResponse
  | badRequest (msg : String)
  | notFound (msg : String)
  | serverError (msg : String)
  | ok (msg : String)
deriving DecidableEq, Repr

/-- Result of the delete route: the response, whether `kv.delete` on the
campaign record was reached, and the index afterwards. -/
structure DeleteResult where
  response : RouteResponse
  recordDeleted : Bool
  index : List String
deriving DecidableEq, Repr

/-- `router.delete` from `src/api/campaigns/route.ts`: up to `maxRetries = 3`
attempts of read-index → filter → write-index (`attemptFails a` says whether
attempt `a` throws); exhausting them returns a 500 without touching the
record, and only after a successful index update is the record deleted. -/
def routeDelete (attemptFails : Nat → Bool)
    (store : List (String × Campaign)) (index : List String) (id : String) :
    DeleteResult :=
  if isBlank id then ⟨.badRequest "Campaign ID is required", false, index⟩
  else if (kvGet store id).isNone then
    ⟨.notFound "Campaign not found", false, index⟩
  else
    match (List.range 3).find? (fun a => !attemptFails a) with
    | none => ⟨.serverError "Failed to update campaign index", false, index⟩
    | some _ =>
      ⟨.ok ("Campaign " ++ id ++ " deleted"), true,
       index.filter (fun cid => cid ≠ id)⟩

/-- C9: deletion retries the index update up to 3 attempts; if all fail the
route returns a stage-level error and the campaign record is NOT deleted
(it is deleted only after the index update succeeded); if any of the three
attempts succeeds the record is deleted and the id filtered from the index;
and the result depends only on the first three attempt outcomes. -/
theorem routeDelete_retry_bound (attemptFails attemptFails' : Nat → Bool)
    (store : List (String × Campaign)) (index : List String) (id : String)
    (camp : Campaign) (hv : isBlank id = false)
    (hget : kvGet store id = some camp) :
    ((∀ a, a < 3 → attemptFails a = true) →
      routeDelete attemptFails store index id =
        ⟨.serverError "Failed to update campaign index", false, index⟩) ∧
    ((∃ a, a < 3 ∧ attemptFails a = false) →
      routeDelete attemptFails store index id =
        ⟨.ok ("Campaign " ++ id ++ " deleted"), true,
         index.filter (fun cid => cid ≠ id)⟩) ∧
    ((∀ a, a < 3 → attemptFails a = attemptFails' a) →
      routeDelete attemptFails store index id =
        routeDelete attemptFails' store index id) := by
  have hrange : List.range 3 = [0, 1, 2] := rfl
  refine ⟨fun hall => ?_, fun hex => ?_, fun hagree => ?_⟩
  · rw [routeDelete, if_neg (by simp [hv]), if_neg (by simp [hget])]
    rw [hrange]
    simp [List.find?, hall 0 (by omega), hall 1 (by omega), hall 2 (by omega)]
  · rw [routeDelete, if_neg (by simp [hv]), if_neg (by simp [hget])]
    rw [hrange]
    obtain ⟨a, ha, hfa⟩ := hex
    interval_cases a
    · cases h1 : attemptFails 1 <;> cases h2 : attemptFails 2 <;>
        simp [List.find?, hfa, h1, h2]
    · cases h0 : attemptFails 0 <;> cases h2 : attemptFails 2 <;>
        simp [List.find?, hfa, h0, h2]
    · cases h0 : attemptFails 0 <;> cases h1 : attemptFails 1 <;>
        simp [List.find?, hfa, h0, h1]
  · rw [routeDelete, routeDelete, if_neg (by simp [hv]), if_neg (by simp [hget]),
      if_neg (by simp [hv]), if_neg (by simp [hget]), hrange]
    have e0 := (hagree 0 (by omega)).symm
    have e1 := (hagree 1 (by omega)).symm
    have e2 := (hagree 2 (by omega)).symm
    cases h0 : attemptFails 0 <;> cases h1 : attemptFails 1 <;>
      cases h2 : attemptFails 2 <;>
      simp [List.find?, h0, h1, h2, e0.trans h0, e1.trans h1, e2.trans h2]

/-- Witness for C9: the first attempt fails, the second succeeds — the
record is deleted and the id removed from the index. -/
theorem routeDelete_retry_bound_witness :
    routeDelete (fun a => a = 0) [("c1", failCampaign)] ["c1", "c2"] "c1" =
      ⟨.ok ("Campaign " ++ "c1" ++ " deleted"), true,
       (["c1", "c2"] : List String).filter (fun cid => cid ≠ "c1")⟩ :=
  (routeDelete_retry_bound (fun a => decide (a = 0)) (fun a => decide (a = 0))
    [("c1", failCampaign)] ["c1", "c2"] "c1" failCampaign (by decide)
    (by decide)).2.1 ⟨1, by omega, by decide⟩

/-! ### Claim theorems: index updates under interleaving -/

/-- In-flight state of one `updateCampaignIndex` call (for a valid id, past
the `isValidId` gate), split at its `await` points: before the index read
(`readIds = none`), after the read but before the conditional write
(`readIds = some ids`), and finished. -/
structure SaveTask where
  id : String
  readIds : Option (List String)
  done : Bool
deriving DecidableEq, Repr

/-- One atomic step of an in-flight `updateCampaignIndex` call against the
shared index record: the first step performs the `getCampaignIndex` read,
the second performs the `includes` check and (only if absent) the `kv.set`
write of `readIds ++ [id]`. -/
def stepSaveTask (index : List String) (t : SaveTask) : List String × SaveTask :=
  if t.done then (index, t)
  else
    match t.readIds with
    | none => (index, { t with readIds := some (getCampaignIndex index) })
    | some campaignIds =>
      if t.id ∈ campaignIds then (index, { t with done := true })
      else (campaignIds ++ [t.id], { t with done := true })

/-- Run two concurrent index-updating saves under an interleaving schedule:
`true` steps the first task, `false` the second; returns the final index. -/
def runTwoSaves (schedule : List Bool) (index : List String)
    (a b : SaveTask) : List String :=
  match schedule with
  | [] => index
  | s :: rest =>
    if s then
      let r := stepSaveTask index a
      runTwoSaves rest r.1 r.2 b
    else
      let r := stepSaveTask index b
      runTwoSaves rest r.1 a r.2

/-- C10 counterexample: under the interleaved schedule read-A, read-B,
write-A, write-B the unguarded read-modify-write loses campaign "A" — the
final index is `["B"]`, so a concurrent save does NOT always leave both ids
present. -/
theorem concurrent_save_lost_update_counterexample :
    runTwoSaves [true, false, true, false] []
      ⟨"A", none, false⟩ ⟨"B", none, false⟩ = ["B"] ∧
    "A" ∉ runTwoSaves [true, false, true, false] []
      ⟨"A", none, false⟩ ⟨"B", none, false⟩ := by
  decide

/-- C10 amended: when the two saves do not interleave (the first completes
before the second starts), both ids end up in the index, in order, and
deleting `a` afterwards leaves exactly `[b]`; under an interleaved schedule
the unguarded read-modify-write can lose one id. -/
theorem sequential_save_index_consistency (a b : String)
    (ha : isBlank a = false) (_hb : isBlank b = false) (hab : a ≠ b) :
    runTwoSaves [true, true, false, false] []
      ⟨a, none, false⟩ ⟨b, none, false⟩ = [a, b] ∧
    (runTwoSaves [true, true, false, false] []
      ⟨a, none, false⟩ ⟨b, none, false⟩).filter (fun cid => cid ≠ a) = [b] := by
  have hba : ¬ b = a := fun h => hab h.symm
  have hmain : runTwoSaves [true, true, false, false] []
      ⟨a, none, false⟩ ⟨b, none, false⟩ = [a, b] := by
    simp [runTwoSaves, stepSaveTask, getCampaignIndex, ha, hba]
  refine ⟨hmain, ?_⟩
  rw [hmain]
  simp [List.filter, hab, hba]

/-- Witness for the amended C10: sequential saves of "A" then "B". -/
theorem sequential_save_index_consistency_witness :
    runTwoSaves [true, true, false, false] []
      ⟨"A", none, false⟩ ⟨"B", none, false⟩ = ["A", "B"] ∧
    (runTwoSaves [true, true, false, false] []
      ⟨"A", none, false⟩ ⟨"B", none, false⟩).filter (fun cid => cid ≠ "A") = ["B"] :=
  sequential_save_index_consistency "A" "B" (by decide) (by decide) (by decide)

end SocialMarketing
